import Mathlib

/-!
Verification development for the `document_graph` frontend.

Shallow embedding of the TypeScript sources:
  * `src/frontend/src/lib/api.ts`           (HTTP client: `request`, `chat`,
    `uploadDocument`, `getTask`)
  * `src/frontend/src/app/w/[workspaceId]/page.tsx`  (workspace page: `onSend`,
    task polling, `onUploadFile`, conversation persistence)
  * `src/frontend/src/app/page.tsx`         (home page: recent workspaces)
  * `src/frontend/src/components/pdf-viewer.tsx`     (page clamping)
  * `src/lib/colors.ts`                     (`gradientForId`)

JavaScript values are modelled as follows: strings as `String`, JSON numbers
as `Rat`, JSON values as the inductive `Json`, JS objects used as maps as
functions `String → Option _`, `null`/`undefined` distinctions via nested
`Option` where the source distinguishes them.
-/

/-- JSON values, the model of what `JSON.stringify` produces and
`resp.json()` parses. -/
inductive Json where
  | null
  | bool (b : Bool)
  | num (q : Rat)
  | str (s : String)
  | arr (elems : List Json)
  | obj (fields : List (String × Json))

/-- Property lookup on a JSON object (JS `obj[k]`); `none` models
`undefined` (absent field or non-object receiver). -/
def lookupField : List (String × Json) → String → Option Json
  | [], _ => none
  | (k', v) :: rest, k => if k' = k then some v else lookupField rest k

def Json.getField : Json → String → Option Json
  | .obj fields, k => lookupField fields k
  | _, _ => none

/-- A file handed to `FormData.append` (model of the DOM `File`). -/
structure FileData where
  name : String
  content : String
deriving DecidableEq

/-- The body of a `fetch` request as built by `api.ts`. -/
inductive RequestBody where
  | empty
  | jsonBody (j : Json)
  | form (fields : List (String × FileData))

/-- A `fetch` request as issued by `request<T>` in `api.ts`: method,
path (relative to `apiBaseUrl()`), optional Content-Type header, body. -/
structure HttpRequest where
  method : String
  path : String
  contentType : Option String
  body : RequestBody

/-- A `fetch` response: `ok`, `status`, `statusText`, `text()` and the
parsed `json()` body. -/
structure HttpResponse where
  ok : Bool
  status : Nat
  statusText : String
  text : String
  json : Json

/-- `request<T>` from `api.ts`: performs the fetch; on `resp.ok` resolves
with the parsed JSON body, otherwise rejects with
`new Error(str(status) + " " + statusText + ": " + text)`.  The network is the
explicit parameter `fetchFn`. -/
def request (fetchFn : HttpRequest → HttpResponse) (req : HttpRequest) :
    Except String Json :=
  let resp := fetchFn req
  if resp.ok then Except.ok resp.json
  else Except.error (toString resp.status ++ " " ++ resp.statusText ++ ": " ++ resp.text)

/-- The chat payload type of `api.ts`:
`{ conversation_id?: string | null; message: string; top_k?: number }`.
`conversation_id = none` models the field being absent (`undefined`),
`some none` models an explicit `null`. -/
structure ChatPayload where
  conversation_id : Option (Option String)
  message : String
  top_k : Option Rat
deriving DecidableEq

/-- `JSON.stringify` of a chat payload: absent (`undefined`) optional fields
are omitted, `null` is kept, insertion order `conversation_id, message, top_k`. -/
def chatPayloadJson (p : ChatPayload) : Json :=
  Json.obj
    ((match p.conversation_id with
      | none => []
      | some none => [("conversation_id", Json.null)]
      | some (some s) => [("conversation_id", Json.str s)]) ++
     [("message", Json.str p.message)] ++
     (match p.top_k with
      | none => []
      | some k => [("top_k", Json.num k)]))

/-- The request `chat` builds: POST `/workspaces/{workspaceId}/chat` with the
JSON payload and a JSON Content-Type. -/
def chatRequest (workspaceId : String) (p : ChatPayload) : HttpRequest :=
  { method := "POST"
    path := "/workspaces/" ++ workspaceId ++ "/chat"
    contentType := some "application/json"
    body := RequestBody.jsonBody (chatPayloadJson p) }

/-- `chat` from `api.ts`. -/
def chat (fetchFn : HttpRequest → HttpResponse) (workspaceId : String)
    (p : ChatPayload) : Except String Json :=
  request fetchFn (chatRequest workspaceId p)

/-- The declared response type of `chat`:
`{ conversation_id: string; answer: string; refs: unknown[] }`. -/
structure ChatOut where
  conversation_id : String
  answer : String
  refs : List Json

/-- Reading a chat response body at the declared type (the shape the
`as T` cast in `request<T>` asserts). -/
def ChatOut.fromJson (j : Json) : Option ChatOut :=
  match j.getField "conversation_id", j.getField "answer", j.getField "refs" with
  | some (.str cid), some (.str ans), some (.arr rs) => some ⟨cid, ans, rs⟩
  | _, _, _ => none

/-- The request `getTask` builds: `fetch` with no init, hence GET, to
`/tasks/{taskId}`. -/
def getTaskRequest (taskId : String) : HttpRequest :=
  { method := "GET"
    path := "/tasks/" ++ taskId
    contentType := none
    body := RequestBody.empty }

/-- `getTask` from `api.ts`. -/
def getTask (fetchFn : HttpRequest → HttpResponse) (taskId : String) :
    Except String Json :=
  request fetchFn (getTaskRequest taskId)

/-- Reading a `string | null` (or absent) field value. -/
def decodeOptStr : Option Json → Option (Option String)
  | none => some none
  | some Json.null => some none
  | some (Json.str s) => some (some s)
  | some _ => none

/-- Reading a `number | null` (or absent) field value. -/
def decodeOptNum : Option Json → Option (Option Rat)
  | none => some none
  | some Json.null => some none
  | some (Json.num q) => some (some q)
  | some _ => none

/-- The fields of the declared `Task` response type that the claims are
about: `status: string`, `stage?: string | null`, `progress?: number | null`,
`error: unknown`. -/
structure TaskOut where
  status : String
  stage : Option String
  progress : Option Rat
  error : Json

/-- Reading a task response body at the declared type. -/
def TaskOut.fromJson (j : Json) : Option TaskOut :=
  match j.getField "status", decodeOptStr (j.getField "stage"),
        decodeOptNum (j.getField "progress") with
  | some (.str st), some sg, some pr =>
      some ⟨st, sg, pr, (j.getField "error").getD Json.null⟩
  | _, _, _ => none

/-- The request `uploadDocument` builds: POST multipart form data with the
file appended under the key `"file"`. -/
def uploadDocumentRequest (workspaceId : String) (file : FileData) : HttpRequest :=
  { method := "POST"
    path := "/workspaces/" ++ workspaceId ++ "/documents/upload"
    contentType := none
    body := RequestBody.form [("file", file)] }

/-- `uploadDocument` from `api.ts`. -/
def uploadDocument (fetchFn : HttpRequest → HttpResponse) (workspaceId : String)
    (file : FileData) : Except String Json :=
  request fetchFn (uploadDocumentRequest workspaceId file)

/-- The declared response type of `uploadDocument`:
`{ workspace_id, document_id, task_id, task_status: string }`. -/
structure UploadOut where
  workspace_id : String
  document_id : String
  task_id : String
  task_status : String
deriving DecidableEq

/-- Reading an upload response body at the declared type. -/
def UploadOut.fromJson (j : Json) : Option UploadOut :=
  match j.getField "workspace_id", j.getField "document_id",
        j.getField "task_id", j.getField "task_status" with
  | some (.str w), some (.str d), some (.str t), some (.str s) =>
      some ⟨w, d, t, s⟩
  | _, _, _, _ => none

/-! ### Workspace page (`src/frontend/src/app/w/[workspaceId]/page.tsx`) -/

/-- One entry of the `activeIndexTasks` state object:
`{ taskId, status, stage?, progress?, error? }`. -/
structure TaskEntry where
  taskId : String
  status : String
  stage : Option String
  progress : Option Rat
  error : Option Json

/-- The `activeIndexTasks` object, keyed by document id. -/
def TaskMap : Type := String → Option TaskEntry

/-- The fields of a polled task that the poll-cycle handler reads:
`id`, `status`, `stage`, `progress`, `error`. -/
structure TaskPolled where
  id : String
  status : String
  stage : Option String
  progress : Option Rat
  error : Json

/-- `status === "succeeded" || status === "failed" || status === "canceled"`. -/
def isTerminal (s : String) : Bool :=
  s == "succeeded" || s == "failed" || s == "canceled"

/-- The entry written for one polled update:
`{ taskId: String(latest.id), status, stage ?? null, progress ?? null,
error: latest.error }`.  (`String(x)` and `x ?? null` are identities on the
already-typed fields.) -/
def pollUpdateEntry (t : TaskPolled) : TaskEntry :=
  { taskId := t.id
    status := t.status
    stage := t.stage
    progress := t.progress
    error := some t.error }

/-- One iteration of the `for (const u of updates)` loop in the poll-cycle
handler: skip on a failed `getTask` (`!u.latest`), otherwise write the
updated entry at `u.docId`, and when the status is terminal delete that key
and set `shouldRefreshDocs`. -/
def pollStepOne (results : String → Option TaskPolled) (acc : TaskMap × Bool)
    (docId : String) : TaskMap × Bool :=
  match results docId with
  | none => acc
  | some t =>
    let updated : TaskMap := fun d => if d = docId then some (pollUpdateEntry t) else acc.1 d
    if isTerminal t.status then
      (fun d => if d = docId then none else updated d, true)
    else
      (updated, acc.2)

/-- One whole poll cycle of the task-status timer: fold the loop body over
`Object.entries(activeIndexTasks)` (here: the list of tracked document ids),
starting from `next = {...prev}` and `shouldRefreshDocs = false`.  The
returned flag records whether `refreshTree()` is invoked afterwards. -/
def pollStep (prev : TaskMap) (entries : List String)
    (results : String → Option TaskPolled) : TaskMap × Bool :=
  entries.foldl (pollStepOne results) (prev, false)

/-- The `setActiveIndexTasks` update performed by `onUploadFile` after a
successful upload: `{...prev, [res.document_id]: { taskId: res.task_id,
status: res.task_status, stage: null, progress: null }}`. -/
def onUploadFileUpdate (prev : TaskMap) (res : UploadOut) : TaskMap :=
  fun d =>
    if d = res.document_id then
      some { taskId := res.task_id, status := res.task_status,
             stage := none, progress := none, error := none }
    else prev d

/-- Message roles shown in the chat pane. -/
inductive Role where
  | user
  | assistant
deriving DecidableEq, BEq

/-- One entry of the `messages` state:
`{ role: "user" | "assistant"; content: string; refs?: RefItem[] }`. -/
structure Msg where
  role : Role
  content : String
  refs : Option (List Json)

/-- `m.role === "assistant" && m.content === "__pending__"`. -/
def isPending (m : Msg) : Bool :=
  (m.role == Role.assistant) && (m.content == "__pending__")

/-- The message-list update shared by the success and failure handlers of
`onSend`: walk the list from the end, replace the last entry satisfying
`isPending` with `r`; if none is found, push `r` at the end. -/
def replaceLastPending : List Msg → Msg → List Msg
  | [], r => [r]
  | m :: rest, r =>
    if rest.any isPending then m :: replaceLastPending rest r
    else if isPending m then r :: rest
    else m :: replaceLastPending rest r

/-- Index of the last pending placeholder in a message list, if any. -/
def lastPendingIdx : List Msg → Option Nat
  | [] => none
  | m :: rest =>
    match lastPendingIdx rest with
    | some j => some (j + 1)
    | none => if isPending m then some 0 else none

/-- JS `String.prototype.trim`: strip leading and trailing whitespace.
Executable model of the `input.trim()` call in `onSend`. -/
def jsTrim (s : String) : String :=
  ⟨((s.data.dropWhile Char.isWhitespace).reverse.dropWhile
      Char.isWhitespace).reverse⟩

/-- The user message appended at the start of `onSend`. -/
def userMsg (text : String) : Msg := ⟨Role.user, text, none⟩

/-- The assistant placeholder appended while waiting for `chat`. -/
def pendingMsg : Msg := ⟨Role.assistant, "__pending__", none⟩

/-- The assistant message written on success: `{ role: "assistant",
content: String(out.answer || ""), refs: out.refs || [] }` (both coercions
are identities on the already-typed fields). -/
def successMsg (out : ChatOut) : Msg := ⟨Role.assistant, out.answer, some out.refs⟩

/-- The assistant message written on failure:
`{ role: "assistant", content: "请求失败：" + errToString(e) }`. -/
def failMsg (e : String) : Msg := ⟨Role.assistant, "请求失败：" ++ e, none⟩

/-- `conversationKey` from the workspace page. -/
def conversationKey (workspaceId : String) : String :=
  "current_conversation:" ++ workspaceId

/-- `localStorage.setItem`. -/
def storageSet (s : String → Option String) (k v : String) :
    String → Option String :=
  fun k' => if k' = k then some v else s k'

/-- `localStorage.removeItem`. -/
def storageRemove (s : String → Option String) (k : String) :
    String → Option String :=
  fun k' => if k' = k then none else s k'

/-- The component state touched by `onSend` and the conversation handlers. -/
structure ChatState where
  messages : List Msg
  input : String
  sending : Bool
  conversationId : Option String
  storage : String → Option String

/-- The payload `onSend` passes to `chat`:
`{ conversation_id: conversationId, message: text }` — the field is always
present (`null` when no conversation is stored) and `top_k` is omitted. -/
def onSendPayload (st : ChatState) : ChatPayload :=
  { conversation_id := some st.conversationId
    message := jsTrim st.input
    top_k := none }

/-- `onSend` from the workspace page, with the settled outcome of the
`chat` call (decoded at its declared response type) as an explicit
parameter.  Empty trimmed input returns immediately; otherwise the user
message and the `__pending__` placeholder are appended, then the success
handler replaces the placeholder with the answer and persists the returned
conversation id, while the failure handler replaces it with the error text
and changes nothing else; the `finally` clause clears `sending`. -/
def onSend (workspaceId : String) (st : ChatState)
    (outcome : Except String ChatOut) : ChatState :=
  let text := jsTrim st.input
  if text = "" then st
  else
    let msgs1 := st.messages ++ [userMsg text, pendingMsg]
    match outcome with
    | .ok out =>
      { messages := replaceLastPending msgs1 (successMsg out)
        input := ""
        sending := false
        conversationId := some out.conversation_id
        storage := storageSet st.storage (conversationKey workspaceId)
          out.conversation_id }
    | .error e =>
      { messages := replaceLastPending msgs1 (failMsg e)
        input := ""
        sending := false
        conversationId := st.conversationId
        storage := st.storage }

/-- The conversation-restore effect: `localStorage.getItem(key)`, and
`setConversationId(v)` only when `v` is truthy (a nonempty string). -/
def restoreConversation (workspaceId : String)
    (storage : String → Option String) (cur : Option String) : Option String :=
  match storage (conversationKey workspaceId) with
  | some v => if v = "" then cur else some v
  | none => cur

/-- The 新对话 (new conversation) button handler: clear the conversation id
from state and localStorage, empty the message list. -/
def newConversation (workspaceId : String) (st : ChatState) : ChatState :=
  { st with
    conversationId := none
    storage := storageRemove st.storage (conversationKey workspaceId)
    messages := [] }

/-! ### Home page (`src/frontend/src/app/page.tsx`) -/

/-- One entry of the persisted `recent_workspaces` list. -/
structure RecentWorkspace where
  workspace_id : String
  last_opened_at : String
deriving DecidableEq

/-- `saveRecent`: persists `items.slice(0, 20)`. -/
def saveRecent (items : List RecentWorkspace) : List RecentWorkspace :=
  items.take 20

/-- `onOpenWorkspace`: prepend the opened workspace with the current time,
drop any prior entry with the same id, and persist via `saveRecent`.
Returns the persisted list. -/
def onOpenWorkspace (current : List RecentWorkspace) (workspaceId now : String) :
    List RecentWorkspace :=
  saveRecent (⟨workspaceId, now⟩ ::
    current.filter (fun x => x.workspace_id ≠ workspaceId))

/-! ### PDF viewer (`src/frontend/src/components/pdf-viewer.tsx`) -/

/-- `clampedPage`: `1` when `numPages <= 0`, otherwise
`Math.max(1, Math.min(page, numPages))`. -/
def clampedPage (numPages page : Int) : Int :=
  if numPages ≤ 0 then 1 else max 1 (min page numPages)

/-- The previous-page button handler: `setPage(p => Math.max(1, p - 1))`. -/
def prevPage (p : Int) : Int := max 1 (p - 1)

/-- The next-page button handler: `setPage(p => p + 1)`. -/
def nextPage (p : Int) : Int := p + 1

/-- The previous-page button's `disabled` condition (ignoring `loading`):
`clampedPage <= 1`. -/
def prevDisabled (numPages page : Int) : Bool :=
  clampedPage numPages page ≤ 1

/-- The next-page button's `disabled` condition (ignoring `loading`):
`numPages <= 0 || clampedPage >= numPages`. -/
def nextDisabled (numPages page : Int) : Bool :=
  numPages ≤ 0 || clampedPage numPages page ≥ numPages

/-! ### Colors (`src/lib/colors.ts`, `gradientForId`) -/

/-- JS `ch.charCodeAt(0)` for a code point produced by `Array.from(id)`:
the code point itself below `0x10000`, otherwise its UTF-16 high
surrogate. -/
def charCodeAt0 (c : Char) : Nat :=
  if c.toNat < 0x10000 then c.toNat
  else 0xD800 + (c.toNat - 0x10000) / 0x400

/-- `Array.from(id).reduce((acc, ch) => acc + ch.charCodeAt(0), 0)`. -/
def sumCharCodes (id : String) : Nat :=
  id.data.foldl (fun acc c => acc + charCodeAt0 c) 0

/-- The five fixed palettes of `gradientForId`. -/
def palettes : List (List String) :=
  [["from-indigo-500/30", "via-sky-500/20", "to-emerald-500/30"],
   ["from-fuchsia-500/25", "via-rose-500/20", "to-amber-500/25"],
   ["from-cyan-500/25", "via-violet-500/20", "to-lime-500/25"],
   ["from-amber-500/25", "via-orange-500/20", "to-pink-500/25"],
   ["from-slate-500/25", "via-blue-500/20", "to-teal-500/25"]]

/-- `gradientForId`: pick `palettes[n % palettes.length]` and join with
spaces after the fixed prefix. -/
def gradientForId (id : String) : String :=
  let n := sumCharCodes id
  let p := palettes.getD (n % palettes.length) []
  "bg-gradient-to-br " ++ String.intercalate " " p

/-! ### Helper lemmas -/

theorem replaceLastPending_concat (xs : List Msg) (p r : Msg)
    (hp : isPending p = true) :
    replaceLastPending (xs ++ [p]) r = xs ++ [r] := by
  induction xs with
  | nil => simp [replaceLastPending, hp]
  | cons x xs ih =>
    have hany : (xs ++ [p]).any isPending = true := by
      simp [List.any_append, hp]
    simp [replaceLastPending, hany, ih]

theorem lastPendingIdx_none_iff (l : List Msg) :
    lastPendingIdx l = none ↔ l.any isPending = false := by
  induction l with
  | nil => simp [lastPendingIdx]
  | cons m rest ih =>
    unfold lastPendingIdx
    cases hrest : lastPendingIdx rest with
    | some j =>
      have hany : rest.any isPending = true := by
        by_contra hfalse
        rw [Bool.not_eq_true] at hfalse
        rw [ih.mpr hfalse] at hrest
        exact Option.noConfusion hrest
      simp [hany]
    | none =>
      have hany : rest.any isPending = false := ih.mp hrest
      by_cases hm : isPending m <;> simp [hm, hany]

theorem replaceLastPending_of_no_pending (l : List Msg) (r : Msg)
    (h : l.any isPending = false) :
    replaceLastPending l r = l ++ [r] := by
  induction l with
  | nil => rfl
  | cons m rest ih =>
    simp only [List.any_cons, Bool.or_eq_false_iff] at h
    simp [replaceLastPending, h.1, h.2, ih h.2]

theorem replaceLastPending_eq_set (l : List Msg) (r : Msg) (i : Nat)
    (h : lastPendingIdx l = some i) :
    replaceLastPending l r = l.set i r := by
  induction l generalizing i with
  | nil => exact Option.noConfusion h
  | cons m rest ih =>
    unfold lastPendingIdx at h
    cases hrest : lastPendingIdx rest with
    | some j =>
      rw [hrest] at h
      have hi : i = j + 1 := by
        injection h with h'
        omega
      subst hi
      have hany : rest.any isPending = true := by
        by_contra hfalse
        rw [Bool.not_eq_true] at hfalse
        rw [(lastPendingIdx_none_iff rest).mpr hfalse] at hrest
        exact Option.noConfusion hrest
      simp [replaceLastPending, hany, ih j hrest, List.set]
    | none =>
      rw [hrest] at h
      have hany : rest.any isPending = false := (lastPendingIdx_none_iff rest).mp hrest
      by_cases hm : isPending m
      · rw [if_pos hm] at h
        have hi : i = 0 := by injection h with h'; omega
        subst hi
        simp [replaceLastPending, hany, hm, List.set]
      · rw [if_neg hm] at h
        exact Option.noConfusion h

theorem lastPendingIdx_spec (l : List Msg) (i : Nat)
    (h : lastPendingIdx l = some i) :
    (∃ m, l[i]? = some m ∧ isPending m = true) ∧
    (∀ j m, i < j → l[j]? = some m → isPending m = false) := by
  induction l generalizing i with
  | nil => exact Option.noConfusion h
  | cons m rest ih =>
    unfold lastPendingIdx at h
    cases hrest : lastPendingIdx rest with
    | some j =>
      rw [hrest] at h
      have hi : i = j + 1 := by injection h with h'; omega
      subst hi
      obtain ⟨hat, hafter⟩ := ih j hrest
      constructor
      · simpa using hat
      · intro k mk hk hget
        cases k with
        | zero => omega
        | succ k' =>
          simp only [List.getElem?_cons_succ] at hget
          exact hafter k' mk (by omega) hget
    | none =>
      rw [hrest] at h
      have hany : rest.any isPending = false := (lastPendingIdx_none_iff rest).mp hrest
      by_cases hm : isPending m
      · rw [if_pos hm] at h
        have hi : i = 0 := by injection h with h'; omega
        subst hi
        refine ⟨⟨m, by simp, hm⟩, ?_⟩
        intro k mk hk hget
        cases k with
        | zero => omega
        | succ k' =>
          simp only [List.getElem?_cons_succ] at hget
          have hmem : mk ∈ rest := by
            exact List.getElem?_mem hget
          rw [List.any_eq_false] at hany
          simpa using hany mk hmem
      · rw [if_neg hm] at h
        exact Option.noConfusion h

theorem pollStepOne_frame (results : String → Option TaskPolled)
    (acc : TaskMap × Bool) (docId x : String) (hx : x ≠ docId) :
    (pollStepOne results acc docId).1 x = acc.1 x := by
  unfold pollStepOne
  cases results docId with
  | none => rfl
  | some t =>
    by_cases ht : isTerminal t.status <;> simp [ht, hx]

theorem pollStepOne_flag (results : String → Option TaskPolled)
    (acc : TaskMap × Bool) (docId : String) (h : acc.2 = true) :
    (pollStepOne results acc docId).2 = true := by
  unfold pollStepOne
  cases results docId with
  | none => exact h
  | some t =>
    by_cases ht : isTerminal t.status <;> simp [ht, h]

theorem pollFold_frame (results : String → Option TaskPolled)
    (l : List String) (acc : TaskMap × Bool) (d : String) (hd : d ∉ l) :
    (l.foldl (pollStepOne results) acc).1 d = acc.1 d := by
  induction l generalizing acc with
  | nil => rfl
  | cons x rest ih =>
    rw [List.foldl_cons]
    rw [ih _ (fun hmem => hd (List.mem_cons_of_mem x hmem))]
    exact pollStepOne_frame results acc x d (fun he => hd (he ▸ List.mem_cons_self x rest))

theorem pollFold_flag (results : String → Option TaskPolled)
    (l : List String) (acc : TaskMap × Bool) (h : acc.2 = true) :
    (l.foldl (pollStepOne results) acc).2 = true := by
  induction l generalizing acc with
  | nil => exact h
  | cons x rest ih =>
    rw [List.foldl_cons]
    exact ih _ (pollStepOne_flag results acc x h)

theorem pollFold_at (results : String → Option TaskPolled)
    (l : List String) (acc : TaskMap × Bool) (d : String) (t : TaskPolled)
    (hnodup : l.Nodup) (hd : d ∈ l) (hres : results d = some t) :
    ((l.foldl (pollStepOne results) acc).1 d
        = if isTerminal t.status then none else some (pollUpdateEntry t)) ∧
    (isTerminal t.status = true → (l.foldl (pollStepOne results) acc).2 = true) := by
  induction l generalizing acc with
  | nil => cases hd
  | cons x rest ih =>
    rcases List.mem_cons.mp hd with h | h
    · subst h
      have hd_rest : d ∉ rest := (List.nodup_cons.mp hnodup).1
      rw [List.foldl_cons]
      constructor
      · rw [pollFold_frame results rest _ d hd_rest]
        unfold pollStepOne
        rw [hres]
        by_cases ht : isTerminal t.status <;> simp [ht]
      · intro ht
        apply pollFold_flag
        unfold pollStepOne
        rw [hres]
        simp [ht]
    · rw [List.foldl_cons]
      exact ih _ (List.nodup_cons.mp hnodup).2 h

/-! ### Claim theorems -/

/-- C1: for every workspace id and chat payload (optional conversation id,
message string, optional top_k), `chat` issues a POST to
`/workspaces/{workspace_id}/chat` carrying the payload serialized as JSON,
and on a successful (`resp.ok`) response resolves to the response object;
when that object carries a conversation id, an answer text and a citations
array, the value read at the declared response type contains exactly
those. -/
theorem chat_contract (workspaceId : String) (p : ChatPayload)
    (fetchFn : HttpRequest → HttpResponse) :
    (chatRequest workspaceId p).method = "POST" ∧
    (chatRequest workspaceId p).path = "/workspaces/" ++ workspaceId ++ "/chat" ∧
    (chatRequest workspaceId p).contentType = some "application/json" ∧
    (chatRequest workspaceId p).body = RequestBody.jsonBody (chatPayloadJson p) ∧
    ((fetchFn (chatRequest workspaceId p)).ok = true →
      chat fetchFn workspaceId p
          = Except.ok (fetchFn (chatRequest workspaceId p)).json ∧
      ∀ cid ans rs,
        (fetchFn (chatRequest workspaceId p)).json.getField "conversation_id"
            = some (Json.str cid) →
        (fetchFn (chatRequest workspaceId p)).json.getField "answer"
            = some (Json.str ans) →
        (fetchFn (chatRequest workspaceId p)).json.getField "refs"
            = some (Json.arr rs) →
        ChatOut.fromJson (fetchFn (chatRequest workspaceId p)).json
            = some ⟨cid, ans, rs⟩) := by
  refine ⟨rfl, rfl, rfl, rfl, fun hok => ⟨?_, ?_⟩⟩
  · unfold chat request
    simp [hok]
  · intro cid ans rs h1 h2 h3
    unfold ChatOut.fromJson
    rw [h1, h2, h3]

/-- C1 witness: a concrete successful chat exchange. -/
theorem chat_contract_witness :
    chat
      (fun _ => ⟨true, 200, "OK", "",
        Json.obj [("conversation_id", Json.str "c1"), ("answer", Json.str "hi"),
                  ("refs", Json.arr [])]⟩)
      "w1" ⟨some none, "q", none⟩
      = Except.ok (Json.obj [("conversation_id", Json.str "c1"),
          ("answer", Json.str "hi"), ("refs", Json.arr [])]) ∧
    ChatOut.fromJson (Json.obj [("conversation_id", Json.str "c1"),
          ("answer", Json.str "hi"), ("refs", Json.arr [])])
      = some ⟨"c1", "hi", []⟩ := by
  have h := chat_contract "w1" ⟨some none, "q", none⟩
    (fun _ => ⟨true, 200, "OK", "",
      Json.obj [("conversation_id", Json.str "c1"), ("answer", Json.str "hi"),
                ("refs", Json.arr [])]⟩)
  exact ⟨(h.2.2.2.2 rfl).1, (h.2.2.2.2 rfl).2 "c1" "hi" [] rfl rfl rfl⟩

/-- C6: `getTask` issues a GET to `/tasks/{task_id}` and on a successful
response resolves to the task body; read at the declared `Task` type that
body exposes `status`, `stage`, `progress` (both possibly null/absent) and
`error`. -/
theorem getTask_contract (taskId : String)
    (fetchFn : HttpRequest → HttpResponse) :
    (getTaskRequest taskId).method = "GET" ∧
    (getTaskRequest taskId).path = "/tasks/" ++ taskId ∧
    ((fetchFn (getTaskRequest taskId)).ok = true →
      getTask fetchFn taskId
          = Except.ok (fetchFn (getTaskRequest taskId)).json ∧
      ∀ st sg pr,
        (fetchFn (getTaskRequest taskId)).json.getField "status"
            = some (Json.str st) →
        decodeOptStr ((fetchFn (getTaskRequest taskId)).json.getField "stage")
            = some sg →
        decodeOptNum ((fetchFn (getTaskRequest taskId)).json.getField "progress")
            = some pr →
        TaskOut.fromJson (fetchFn (getTaskRequest taskId)).json
            = some ⟨st, sg, pr,
                (((fetchFn (getTaskRequest taskId)).json.getField "error").getD
                  Json.null)⟩) := by
  refine ⟨rfl, rfl, fun hok => ⟨?_, ?_⟩⟩
  · unfold getTask request
    simp [hok]
  · intro st sg pr h1 h2 h3
    unfold TaskOut.fromJson
    rw [h1, h2, h3]

/-- C6 witness: a concrete successful poll with a null stage and progress. -/
theorem getTask_contract_witness :
    getTask
      (fun _ => ⟨true, 200, "OK", "",
        Json.obj [("status", Json.str "running"), ("stage", Json.null),
                  ("progress", Json.null), ("error", Json.null)]⟩)
      "t1"
      = Except.ok (Json.obj [("status", Json.str "running"),
          ("stage", Json.null), ("progress", Json.null), ("error", Json.null)]) ∧
    TaskOut.fromJson (Json.obj [("status", Json.str "running"),
          ("stage", Json.null), ("progress", Json.null), ("error", Json.null)])
      = some ⟨"running", none, none, Json.null⟩ := by
  have h := getTask_contract "t1"
    (fun _ => ⟨true, 200, "OK", "",
      Json.obj [("status", Json.str "running"), ("stage", Json.null),
                ("progress", Json.null), ("error", Json.null)]⟩)
  exact ⟨(h.2.2 rfl).1, (h.2.2 rfl).2 "running" none none rfl rfl rfl⟩

/-- C5: `uploadDocument` POSTs the file as multipart form data (key
`"file"`) to `/workspaces/{workspace_id}/documents/upload`, resolving on a
successful response to a body carrying `workspace_id`, `document_id`,
`task_id`, `task_status`; when the page decodes that body, `onUploadFile`
records the task handle in the active-task map keyed by the returned
`document_id` with `stage` and `progress` null, changing no other key. -/
theorem uploadDocument_contract (workspaceId : String) (file : FileData)
    (fetchFn : HttpRequest → HttpResponse) :
    (uploadDocumentRequest workspaceId file).method = "POST" ∧
    (uploadDocumentRequest workspaceId file).path
        = "/workspaces/" ++ workspaceId ++ "/documents/upload" ∧
    (uploadDocumentRequest workspaceId file).body
        = RequestBody.form [("file", file)] ∧
    ((fetchFn (uploadDocumentRequest workspaceId file)).ok = true →
      uploadDocument fetchFn workspaceId file
          = Except.ok (fetchFn (uploadDocumentRequest workspaceId file)).json ∧
      (∀ w d t s,
        (fetchFn (uploadDocumentRequest workspaceId file)).json.getField
            "workspace_id" = some (Json.str w) →
        (fetchFn (uploadDocumentRequest workspaceId file)).json.getField
            "document_id" = some (Json.str d) →
        (fetchFn (uploadDocumentRequest workspaceId file)).json.getField
            "task_id" = some (Json.str t) →
        (fetchFn (uploadDocumentRequest workspaceId file)).json.getField
            "task_status" = some (Json.str s) →
        UploadOut.fromJson (fetchFn (uploadDocumentRequest workspaceId file)).json
            = some ⟨w, d, t, s⟩) ∧
      (∀ (res : UploadOut) (prev : TaskMap),
        onUploadFileUpdate prev res res.document_id
            = some ⟨res.task_id, res.task_status, none, none, none⟩ ∧
        ∀ d, d ≠ res.document_id → onUploadFileUpdate prev res d = prev d)) := by
  refine ⟨rfl, rfl, rfl, fun hok => ⟨?_, ?_, ?_⟩⟩
  · unfold uploadDocument request
    simp [hok]
  · intro w d t s h1 h2 h3 h4
    unfold UploadOut.fromJson
    rw [h1, h2, h3, h4]
  · intro res prev
    constructor
    · unfold onUploadFileUpdate
      rw [if_pos rfl]
    · intro d hd
      unfold onUploadFileUpdate
      rw [if_neg hd]

/-- C5 witness: a concrete successful upload recorded in the task map. -/
theorem uploadDocument_contract_witness :
    uploadDocument
      (fun _ => ⟨true, 200, "OK", "",
        Json.obj [("workspace_id", Json.str "w1"), ("document_id", Json.str "d1"),
                  ("task_id", Json.str "t1"), ("task_status", Json.str "pending")]⟩)
      "w1" ⟨"a.md", "hello"⟩
      = Except.ok (Json.obj [("workspace_id", Json.str "w1"),
          ("document_id", Json.str "d1"), ("task_id", Json.str "t1"),
          ("task_status", Json.str "pending")]) ∧
    onUploadFileUpdate (fun _ => none) ⟨"w1", "d1", "t1", "pending"⟩ "d1"
      = some ⟨"t1", "pending", none, none, none⟩ := by
  have h := uploadDocument_contract "w1" ⟨"a.md", "hello"⟩
    (fun _ => ⟨true, 200, "OK", "",
      Json.obj [("workspace_id", Json.str "w1"), ("document_id", Json.str "d1"),
                ("task_id", Json.str "t1"), ("task_status", Json.str "pending")]⟩)
  exact ⟨(h.2.2.2 rfl).1,
    ((h.2.2.2 rfl).2.2 ⟨"w1", "d1", "t1", "pending"⟩ (fun _ => none)).1⟩

/-- C8: `gradientForId` is total, the palette index
`sumCharCodes id % palettes.length` is always in range, equal inputs give
equal outputs (it is a function of `id` alone), and the result is always
`"bg-gradient-to-br "` followed by one of the five fixed palette triples. -/
theorem gradientForId_safe (id : String) :
    sumCharCodes id % palettes.length < palettes.length ∧
    gradientForId id ∈
      ["bg-gradient-to-br from-indigo-500/30 via-sky-500/20 to-emerald-500/30",
       "bg-gradient-to-br from-fuchsia-500/25 via-rose-500/20 to-amber-500/25",
       "bg-gradient-to-br from-cyan-500/25 via-violet-500/20 to-lime-500/25",
       "bg-gradient-to-br from-amber-500/25 via-orange-500/20 to-pink-500/25",
       "bg-gradient-to-br from-slate-500/25 via-blue-500/20 to-teal-500/25"] := by
  have hlen : palettes.length = 5 := rfl
  have hm : sumCharCodes id % palettes.length < palettes.length := by
    rw [hlen]
    exact Nat.mod_lt _ (by norm_num)
  refine ⟨hm, ?_⟩
  show "bg-gradient-to-br " ++
      String.intercalate " " (palettes.getD (sumCharCodes id % palettes.length) []) ∈ _
  revert hm
  generalize sumCharCodes id % palettes.length = m
  intro hm
  rw [hlen] at hm
  have h5 : m = 0 ∨ m = 1 ∨ m = 2 ∨ m = 3 ∨ m = 4 := by omega
  rcases h5 with h | h | h | h | h <;> subst h <;> decide

/-- C9: `clampedPage` is `1` when `numPages` is non-positive and otherwise
lies in `[1, numPages]`; the previous/next handlers keep the clamped page in
those bounds, and the `disabled` conditions only enable a button strictly
inside the corresponding bound. -/
theorem clampedPage_bounds (numPages page : Int) :
    (numPages ≤ 0 → clampedPage numPages page = 1) ∧
    (0 < numPages →
      1 ≤ clampedPage numPages page ∧ clampedPage numPages page ≤ numPages) ∧
    (0 < numPages →
      1 ≤ clampedPage numPages (prevPage page) ∧
      clampedPage numPages (prevPage page) ≤ numPages) ∧
    (0 < numPages →
      1 ≤ clampedPage numPages (nextPage page) ∧
      clampedPage numPages (nextPage page) ≤ numPages) ∧
    (prevDisabled numPages page = false → 1 < clampedPage numPages page) ∧
    (nextDisabled numPages page = false →
      0 < numPages ∧ clampedPage numPages page < numPages) := by
  refine ⟨fun h => ?_, fun h => ?_, fun h => ?_, fun h => ?_, fun h => ?_, fun h => ?_⟩ <;>
    simp only [clampedPage, prevPage, nextPage, prevDisabled, nextDisabled,
      decide_eq_false_iff_not, Bool.or_eq_false_iff, not_le, not_lt] at * <;>
    split_ifs at * <;> omega

/-- C9 witness: a 5-page document at page 3. -/
theorem clampedPage_bounds_witness :
    clampedPage 0 7 = 1 ∧
    (1 ≤ clampedPage 5 3 ∧ clampedPage 5 3 ≤ 5) ∧
    (1 ≤ clampedPage 5 (nextPage 3) ∧ clampedPage 5 (nextPage 3) ≤ 5) := by
  refine ⟨(clampedPage_bounds 0 7).1 (by norm_num),
    (clampedPage_bounds 5 3).2.1 (by norm_num),
    (clampedPage_bounds 5 3).2.2.2.1 (by norm_num)⟩

/-- C10: after `onOpenWorkspace` the persisted recent list starts with the
opened workspace, remains duplicate-free (given the prior list was), and
`saveRecent` always persists at most 20 entries. -/
theorem onOpenWorkspace_recent_invariant (current : List RecentWorkspace)
    (workspaceId now : String) :
    (onOpenWorkspace current workspaceId now).head? = some ⟨workspaceId, now⟩ ∧
    ((current.map RecentWorkspace.workspace_id).Nodup →
      ((onOpenWorkspace current workspaceId now).map
        RecentWorkspace.workspace_id).Nodup) ∧
    (∀ items : List RecentWorkspace, (saveRecent items).length ≤ 20) := by
  refine ⟨?_, ?_, ?_⟩
  · unfold onOpenWorkspace saveRecent
    rfl
  · intro hnodup
    unfold onOpenWorkspace saveRecent
    have hsub : List.Sublist
        (((⟨workspaceId, now⟩ ::
          current.filter (fun x => x.workspace_id ≠ workspaceId)).take 20).map
            RecentWorkspace.workspace_id)
        ((⟨workspaceId, now⟩ ::
          current.filter (fun x => x.workspace_id ≠ workspaceId)).map
            RecentWorkspace.workspace_id) :=
      (List.take_sublist _ _).map _
    refine hsub.nodup ?_
    rw [List.map_cons, List.nodup_cons]
    constructor
    · intro hmem
      rw [List.mem_map] at hmem
      obtain ⟨x, hx, hxid⟩ := hmem
      rw [List.mem_filter] at hx
      have := hx.2
      simp only [ne_eq, decide_eq_true_eq] at this
      exact this hxid
    · exact ((List.filter_sublist _).map _).nodup hnodup
  · intro items
    unfold saveRecent
    rw [List.length_take]
    omega

/-- C10 witness: opening `w1` again from a two-entry list. -/
theorem onOpenWorkspace_recent_invariant_witness :
    (onOpenWorkspace [⟨"w2", "t0"⟩, ⟨"w1", "t0"⟩] "w1" "t1").head?
        = some ⟨"w1", "t1"⟩ ∧
    ((onOpenWorkspace [⟨"w2", "t0"⟩, ⟨"w1", "t0"⟩] "w1" "t1").map
        RecentWorkspace.workspace_id).Nodup := by
  have h := onOpenWorkspace_recent_invariant [⟨"w2", "t0"⟩, ⟨"w1", "t0"⟩] "w1" "t1"
  exact ⟨h.1, h.2.1 (by decide)⟩

/-- C2: when the chat call rejects, `onSend` leaves the just-appended user
message in the list, replaces only the pending placeholder with the error
message, clears `sending`, and changes neither any other message nor the
stored conversation id nor localStorage. -/
theorem onSend_failure_behavior (workspaceId : String) (st : ChatState)
    (e : String) (h : jsTrim st.input ≠ "") :
    (onSend workspaceId st (Except.error e)).messages
        = st.messages ++ [userMsg (jsTrim st.input), failMsg e] ∧
    (onSend workspaceId st (Except.error e)).sending = false ∧
    (onSend workspaceId st (Except.error e)).conversationId
        = st.conversationId ∧
    (∀ k, (onSend workspaceId st (Except.error e)).storage k = st.storage k) := by
  unfold onSend
  rw [if_neg h]
  refine ⟨?_, rfl, rfl, fun k => rfl⟩
  have hp : isPending pendingMsg = true := by decide
  calc replaceLastPending (st.messages ++ [userMsg (jsTrim st.input), pendingMsg])
          (failMsg e)
      = replaceLastPending ((st.messages ++ [userMsg (jsTrim st.input)]) ++ [pendingMsg])
          (failMsg e) := by simp
    _ = (st.messages ++ [userMsg (jsTrim st.input)]) ++ [failMsg e] :=
        replaceLastPending_concat _ _ _ hp
    _ = st.messages ++ [userMsg (jsTrim st.input), failMsg e] := by simp

/-- C2 witness: a concrete failing turn from a one-message history. -/
theorem onSend_failure_behavior_witness :
    (onSend "w1" ⟨[userMsg "old"], " hi ", false, some "c0", fun _ => none⟩
        (Except.error "boom")).messages
      = [userMsg "old", userMsg "hi", failMsg "boom"] ∧
    (onSend "w1" ⟨[userMsg "old"], " hi ", false, some "c0", fun _ => none⟩
        (Except.error "boom")).conversationId = some "c0" := by
  have h := onSend_failure_behavior "w1"
    ⟨[userMsg "old"], " hi ", false, some "c0", fun _ => none⟩ "boom" (by decide)
  exact ⟨h.1, h.2.2.1⟩

/-- C4: the chat payload built by `onSend` always carries the currently
stored conversation id (an explicit `null` when none); a successful turn
writes the returned id to both component state and the localStorage key
`current_conversation:<workspaceId>`, a later send from that state carries
that id, the restore effect recovers it, and the new-conversation handler
clears both. -/
theorem conversation_id_flow (workspaceId : String) (st : ChatState)
    (out : ChatOut) (h : jsTrim st.input ≠ "") :
    (onSendPayload st).conversation_id = some st.conversationId ∧
    (onSendPayload st).message = jsTrim st.input ∧
    (onSendPayload st).top_k = none ∧
    (onSend workspaceId st (Except.ok out)).conversationId
        = some out.conversation_id ∧
    (onSend workspaceId st (Except.ok out)).storage (conversationKey workspaceId)
        = some out.conversation_id ∧
    (onSendPayload (onSend workspaceId st (Except.ok out))).conversation_id
        = some (some out.conversation_id) ∧
    (out.conversation_id ≠ "" →
      restoreConversation workspaceId
          (onSend workspaceId st (Except.ok out)).storage none
        = some out.conversation_id) ∧
    (newConversation workspaceId st).conversationId = none ∧
    (newConversation workspaceId st).storage (conversationKey workspaceId)
        = none := by
  refine ⟨rfl, rfl, rfl, ?_, ?_, ?_, ?_, rfl, ?_⟩
  · simp [onSend, h]
  · simp [onSend, h, storageSet]
  · simp [onSendPayload, onSend, h]
  · intro hne
    simp [restoreConversation, onSend, h, storageSet, hne]
  · simp [newConversation, storageRemove]

/-- C4 witness: a concrete successful turn followed by a new conversation. -/
theorem conversation_id_flow_witness :
    (onSendPayload ⟨[], "hi", false, none, fun _ => none⟩).conversation_id
        = some none ∧
    (onSend "w1" ⟨[], "hi", false, none, fun _ => none⟩
        (Except.ok ⟨"c9", "ans", []⟩)).conversationId = some "c9" ∧
    (onSend "w1" ⟨[], "hi", false, none, fun _ => none⟩
        (Except.ok ⟨"c9", "ans", []⟩)).storage (conversationKey "w1")
        = some "c9" ∧
    (newConversation "w1" ⟨[], "hi", false, none, fun _ => none⟩).conversationId
        = none := by
  have h := conversation_id_flow "w1" ⟨[], "hi", false, none, fun _ => none⟩
    ⟨"c9", "ans", []⟩ (by decide)
  exact ⟨h.1, h.2.2.2.1, h.2.2.2.2.1, h.2.2.2.2.2.2.2.1⟩

/-- C7: both handlers' message-list update touches at most one existing
entry.  With no pending placeholder it only appends; otherwise it replaces
exactly the last pending assistant entry (every later entry is
non-pending), leaving every other index unchanged. -/
theorem onSend_message_frame (msgs : List Msg) (out : ChatOut) (e : String) :
    (msgs.any isPending = false →
      replaceLastPending msgs (successMsg out) = msgs ++ [successMsg out] ∧
      replaceLastPending msgs (failMsg e) = msgs ++ [failMsg e]) ∧
    (∀ i, lastPendingIdx msgs = some i →
      (∃ m, msgs[i]? = some m ∧ isPending m = true) ∧
      (∀ j m, i < j → msgs[j]? = some m → isPending m = false) ∧
      replaceLastPending msgs (successMsg out) = msgs.set i (successMsg out) ∧
      replaceLastPending msgs (failMsg e) = msgs.set i (failMsg e) ∧
      (∀ j, j ≠ i →
        (msgs.set i (successMsg out))[j]? = msgs[j]? ∧
        (msgs.set i (failMsg e))[j]? = msgs[j]?)) := by
  constructor
  · intro hnone
    exact ⟨replaceLastPending_of_no_pending msgs _ hnone,
           replaceLastPending_of_no_pending msgs _ hnone⟩
  · intro i hi
    obtain ⟨hat, hafter⟩ := lastPendingIdx_spec msgs i hi
    refine ⟨hat, hafter, replaceLastPending_eq_set msgs _ i hi,
      replaceLastPending_eq_set msgs _ i hi, ?_⟩
    intro j hj
    exact ⟨List.getElem?_set_ne (fun he => hj he.symm),
           List.getElem?_set_ne (fun he => hj he.symm)⟩

/-- C7 witness: a list whose last pending entry sits between completed
messages. -/
theorem onSend_message_frame_witness :
    replaceLastPending [userMsg "q", pendingMsg] (failMsg "x")
        = [userMsg "q", failMsg "x"] ∧
    replaceLastPending [userMsg "q"] (failMsg "x")
        = [userMsg "q", failMsg "x"] := by
  have h2 := onSend_message_frame [userMsg "q", pendingMsg] ⟨"c", "a", []⟩ "x"
  have h1 := onSend_message_frame [userMsg "q"] ⟨"c", "a", []⟩ "x"
  refine ⟨?_, (h1.1 (by decide)).2⟩
  have := (h2.2 1 (by decide)).2.2.2.1
  simpa using this

/-- C3: in one poll cycle, a tracked document whose `getTask` poll returns a
task is rewritten in place with the latest `taskId`, `status`, `stage`,
`progress` and `error`, is removed from the active-task map exactly when the
polled status is `succeeded`, `failed` or `canceled` (in which case the
tree-refresh flag is set), and stays tracked with the updated entry for any
other status. -/
theorem pollStep_entry_transition (prev : TaskMap) (entries : List String)
    (results : String → Option TaskPolled) (d : String) (t : TaskPolled)
    (hnodup : entries.Nodup) (hd : d ∈ entries) (hres : results d = some t) :
    ((pollStep prev entries results).1 d = none ↔ isTerminal t.status = true) ∧
    (isTerminal t.status = false →
      (pollStep prev entries results).1 d = some (pollUpdateEntry t)) ∧
    (isTerminal t.status = true → (pollStep prev entries results).2 = true) := by
  obtain ⟨h1, h2⟩ := pollFold_at results entries (prev, false) d t hnodup hd hres
  unfold pollStep
  refine ⟨⟨?_, ?_⟩, ?_, h2⟩
  · intro hnone
    by_contra hterm
    rw [Bool.not_eq_true] at hterm
    rw [h1, if_neg (by simp [hterm])] at hnone
    exact Option.noConfusion hnone
  · intro ht
    rw [h1, if_pos ht]
  · intro ht
    rw [h1, if_neg (by simp [ht])]

/-- C3 witness: one cycle over two tracked documents in which the first
poll reports `succeeded` (entry dropped, refresh flag set) and the second
reports `running` (entry kept, updated in place). -/
theorem pollStep_entry_transition_witness :
    (pollStep (fun _ => none) ["d1", "d2"]
        (fun d => if d = "d1" then some ⟨"t1", "succeeded", none, none, Json.null⟩
                  else some ⟨"t2", "running", some "chunk", none, Json.null⟩)).1 "d1"
      = none ∧
    (pollStep (fun _ => none) ["d1", "d2"]
        (fun d => if d = "d1" then some ⟨"t1", "succeeded", none, none, Json.null⟩
                  else some ⟨"t2", "running", some "chunk", none, Json.null⟩)).2
      = true ∧
    (pollStep (fun _ => none) ["d1", "d2"]
        (fun d => if d = "d1" then some ⟨"t1", "succeeded", none, none, Json.null⟩
                  else some ⟨"t2", "running", some "chunk", none, Json.null⟩)).1 "d2"
      = some (pollUpdateEntry ⟨"t2", "running", some "chunk", none, Json.null⟩) := by
  have h1 := pollStep_entry_transition (fun _ => none) ["d1", "d2"]
    (fun d => if d = "d1" then some ⟨"t1", "succeeded", none, none, Json.null⟩
              else some ⟨"t2", "running", some "chunk", none, Json.null⟩)
    "d1" ⟨"t1", "succeeded", none, none, Json.null⟩
    (by decide) (by decide) (by simp)
  have h2 := pollStep_entry_transition (fun _ => none) ["d1", "d2"]
    (fun d => if d = "d1" then some ⟨"t1", "succeeded", none, none, Json.null⟩
              else some ⟨"t2", "running", some "chunk", none, Json.null⟩)
    "d2" ⟨"t2", "running", some "chunk", none, Json.null⟩
    (by decide) (by decide) (by simp)
  exact ⟨h1.1.mpr rfl, h1.2.2 rfl, h2.2.1 rfl⟩
